import Mathlib

/-!
Shallow embedding of `src/physics.c` (2D rigid-body kinematic integrator).

Doubles are modelled as real numbers; the C literal `0.01` and the constant
`M_PI` become the exact real values `1/100` and `Real.pi`.  Mutation of a
`Solid` in place becomes a function from the old record to the new one.
-/

namespace Physics

/-- Modelled from the spec: the `MOD(x,y)` macro lives in `physics.h`, which is
not part of `src/`; per §4.1 it computes the magnitude `sqrt(x²+y²)`. -/
noncomputable def MOD (x y : ℝ) : ℝ := Real.sqrt (x ^ 2 + y ^ 2)

/-- Modelled from the spec: C's `atan2(y,x)` from `math.h`; per §4.1 it returns
the angle of the point `(x, y)` in `(−π, π]`. -/
noncomputable def atan2 (y x : ℝ) : ℝ :=
  if 0 < x then Real.arctan (y / x)
  else if x < 0 ∧ 0 ≤ y then Real.arctan (y / x) + Real.pi
  else if x < 0 ∧ y < 0 then Real.arctan (y / x) - Real.pi
  else if x = 0 ∧ 0 < y then Real.pi / 2
  else if x = 0 ∧ y < 0 then -(Real.pi / 2)
  else 0

/-- Modelled from the spec: the `ANGLE(x,y)` macro lives in `physics.h`, which
is not part of `src/`; per §4.1 it computes `atan2(y, x)`. -/
noncomputable def ANGLE (x y : ℝ) : ℝ := atan2 y x

/-- A 2D vector stored redundantly in cartesian and polar form
(`Vector2d` from `physics.h`, fields as used by `physics.c`). -/
structure Vector2d where
  x : ℝ
  y : ℝ
  mod : ℝ
  angle : ℝ

/-- Source `vect_cset` (physics.c:18-24): set the vector value using cartesian
coordinates, deriving the polar fields. -/
noncomputable def vect_cset (x y : ℝ) : Vector2d :=
  { x := x, y := y, mod := MOD x y, angle := ANGLE x y }

/-- Source `vect_pset` (physics.c:28-34): set the vector value using polar
coordinates, deriving the cartesian fields. -/
noncomputable def vect_pset (mod angle : ℝ) : Vector2d :=
  { x := mod * Real.cos angle, y := mod * Real.sin angle, mod := mod, angle := angle }

/-- Source `vectcpy` (physics.c:38-44): copies vector `src` over `dest`,
field by field. -/
def vectcpy (_dest src : Vector2d) : Vector2d :=
  { x := src.x, y := src.y, mod := src.mod, angle := src.angle }

/-- Source `vectnull` (physics.c:48-51): makes a vector NULL (all fields 0). -/
def vectnull : Vector2d := { x := 0, y := 0, mod := 0, angle := 0 }

/-- The `Solid.update` function pointer: the only variant bound by the source
is the RK4 integrator. -/
inductive Integrator
  | rk4

/-- The `Solid` state record from `physics.h`, with exactly the fields
`physics.c` reads and writes. -/
structure Solid where
  mass : ℝ
  vel : Vector2d
  pos : Vector2d
  force : Vector2d
  dir : ℝ
  dir_vel : ℝ
  update : Integrator

/-- Source physics.c:124-126: heading advance and one-shot normalization.
`dir += dir_vel/360*dt`, then subtract `2π` once if the result exceeds `2π`,
then add `2π` once if it is negative. -/
noncomputable def dir_step (dir dir_vel dt : ℝ) : ℝ :=
  let d := dir + dir_vel / 360 * dt
  let d2 := if d > 2 * Real.pi then d - 2 * Real.pi else d
  if d2 < 0 then d2 + 2 * Real.pi else d2

/-- Source `RK4_MIN_H` (physics.c:120): the minimal pass wanted, `0.01`. -/
def RK4_MIN_H : ℝ := 0.01

/-- Source physics.c:128: `N = (dt > RK4_MIN_H) ? (int)(dt/RK4_MIN_H) : 1`.
The C cast to `int` truncates toward zero, which for `dt > 0.01 > 0` is the
floor. -/
noncomputable def rk4_N (dt : ℝ) : ℕ :=
  if dt > RK4_MIN_H then (⌊dt / RK4_MIN_H⌋).toNat else 1

/-- Source physics.c:129: the step `h = dt / (double)N`. -/
noncomputable def rk4_h (dt : ℝ) : ℝ := dt / (rk4_N dt : ℝ)

/-- Source physics.c:148-153: the x-component position blend of one substep.
Each `let` mirrors one `tx +=` statement of the source. -/
def rk4_xblend {K : Type} [Field K] (h vx : K) : K :=
  let ix := vx
  let tx := vx
  let tx := tx + (2 * ix + h * tx)
  let tx := tx + (2 * ix + h * tx)
  let tx := tx + (ix + h * tx)
  tx * (h / 6)

/-- Source physics.c:158-163: the y-component position blend of one substep.
Each `let` mirrors one `ty +=` statement of the source. -/
def rk4_yblend {K : Type} [Field K] (h vy : K) : K :=
  let iy := vy
  let ty := vy
  let ty := ty + 2 * (iy + h / 2 * ty)
  let ty := ty + 2 * (iy + h / 2 * ty)
  let ty := ty + (iy + h * ty)
  ty * (h / 6)

/-- Source physics.c:146-167: the substep loop of the force branch, acting on
the state `(px, py, vx, vy)`.  Each iteration adds the x/y blends to the
position and advances the velocity by `acceleration * h`. -/
def rk4_loop {K : Type} [Field K] (h ax ay : K) : ℕ → K × K × K × K → K × K × K × K
  | 0, s => s
  | Nat.succ n, s =>
      rk4_loop h ax ay n
        (s.1 + rk4_xblend h s.2.2.1, s.2.1 + rk4_yblend h s.2.2.2,
         s.2.2.1 + ax * h, s.2.2.2 + ay * h)

/-- Source `rk4_update` (physics.c:121-175): advance heading, then either run
the substep loop (force applied, `force.mod` nonzero) committing velocity and
position through `vect_cset`, or advance position linearly by `dt * v`
(no force), committing only the position. -/
noncomputable def rk4_update (obj : Solid) (dt : ℝ) : Solid :=
  let d := dir_step obj.dir obj.dir_vel dt
  let N := rk4_N dt
  let h := rk4_h dt
  let px := obj.pos.x
  let py := obj.pos.y
  let vx := obj.vel.x
  let vy := obj.vel.y
  if obj.force.mod ≠ 0 then
    let ax := obj.force.x / obj.mass
    let ay := obj.force.y / obj.mass
    let r := rk4_loop h ax ay N (px, py, vx, vy)
    { obj with dir := d, vel := vect_cset r.2.2.1 r.2.2.2, pos := vect_cset r.1 r.2.1 }
  else
    { obj with dir := d, pos := vect_cset (px + dt * vx) (py + dt * vy) }

/-- Source `solid_init` (physics.c:181-195).  `dest` is the pre-existing
(possibly uninitialized) record being initialized in place: the source writes
`mass`, `force.mod`, `dir`, `vel`, `pos` and `update`, and nothing else. -/
def solid_init (dest : Solid) (mass : ℝ) (vel pos : Option Vector2d) : Solid :=
  { dest with
    mass := mass
    force := { dest.force with mod := 0 }
    dir := 0
    vel := match vel with | none => vectnull | some v => vectcpy dest.vel v
    pos := match pos with | none => vectnull | some p => vectcpy dest.pos p
    update := Integrator.rk4 }

/-- Source `solid_create` (physics.c:200-206): allocate (modelled by the
arbitrary contents `mem` of the fresh allocation) and initialize. -/
def solid_create (mem : Solid) (mass : ℝ) (vel pos : Option Vector2d) : Solid :=
  solid_init mem mass vel pos

/-! ## Helper lemmas -/

/-- Both branches of `rk4_update` store the same normalized heading. -/
theorem rk4_update_dir_eq (s : Solid) (dt : ℝ) :
    (rk4_update s dt).dir = dir_step s.dir s.dir_vel dt := by
  unfold rk4_update
  split <;> rfl

/-- Reduction of `rk4_update` when no force is applied (`force.mod = 0`):
physics.c:170-174. -/
theorem rk4_update_of_mod_eq (s : Solid) (dt : ℝ) (hf : s.force.mod = 0) :
    rk4_update s dt =
      { s with dir := dir_step s.dir s.dir_vel dt,
               pos := vect_cset (s.pos.x + dt * s.vel.x) (s.pos.y + dt * s.vel.y) } := by
  unfold rk4_update
  rw [if_neg]
  simp [hf]

/-- Reduction of `rk4_update` when a force is applied (`force.mod ≠ 0`):
physics.c:138-168. -/
theorem rk4_update_of_mod_ne (s : Solid) (dt : ℝ) (hf : s.force.mod ≠ 0) :
    rk4_update s dt =
      { s with dir := dir_step s.dir s.dir_vel dt,
               vel := vect_cset
                 (rk4_loop (rk4_h dt) (s.force.x / s.mass) (s.force.y / s.mass)
                   (rk4_N dt) (s.pos.x, s.pos.y, s.vel.x, s.vel.y)).2.2.1
                 (rk4_loop (rk4_h dt) (s.force.x / s.mass) (s.force.y / s.mass)
                   (rk4_N dt) (s.pos.x, s.pos.y, s.vel.x, s.vel.y)).2.2.2,
               pos := vect_cset
                 (rk4_loop (rk4_h dt) (s.force.x / s.mass) (s.force.y / s.mass)
                   (rk4_N dt) (s.pos.x, s.pos.y, s.vel.x, s.vel.y)).1
                 (rk4_loop (rk4_h dt) (s.force.x / s.mass) (s.force.y / s.mass)
                   (rk4_N dt) (s.pos.x, s.pos.y, s.vel.x, s.vel.y)).2.1 } := by
  unfold rk4_update
  rw [if_pos hf]

/-- Closed form of the substep loop over the reals: after `n` substeps the
position has gained `(n·v + a·h·n(n−1)/2) · c` with
`c = h(6+9h+5h²+h³)/6`, and the velocity has gained `n·a·h`. -/
theorem rk4_loop_closed (h ax ay : ℝ) (n : ℕ) (px py vx vy : ℝ) :
    rk4_loop h ax ay n (px, py, vx, vy) =
      (px + ((n : ℝ) * vx + ax * h * ((n : ℝ) * ((n : ℝ) - 1) / 2)) *
          (h * (6 + 9 * h + 5 * h ^ 2 + h ^ 3) / 6),
       py + ((n : ℝ) * vy + ay * h * ((n : ℝ) * ((n : ℝ) - 1) / 2)) *
          (h * (6 + 9 * h + 5 * h ^ 2 + h ^ 3) / 6),
       vx + (n : ℝ) * (ax * h),
       vy + (n : ℝ) * (ay * h)) := by
  induction n generalizing px py vx vy with
  | zero => simp [rk4_loop]
  | succ n ih =>
      rw [rk4_loop, ih]
      refine Prod.ext ?_ (Prod.ext ?_ (Prod.ext ?_ ?_)) <;>
        simp only [rk4_xblend, rk4_yblend] <;> push_cast <;> ring

/-- The substep count at `dt = 1` is `100`. -/
theorem rk4_N_one : rk4_N 1 = 100 := by
  unfold rk4_N
  rw [if_pos (by norm_num [RK4_MIN_H])]
  rw [show (1 : ℝ) / RK4_MIN_H = ((100 : ℤ) : ℝ) by norm_num [RK4_MIN_H]]
  rw [Int.floor_intCast]
  rfl

/-! ## Claim theorems -/

/-- C2: for every Solid whose force has magnitude 0 and every `dt ≥ 0`, after
`rk4_update` the position equals `position₀ + velocity₀ · dt` and the velocity
record (all four `Vector2d` fields) is unchanged. -/
theorem rk4_update_no_force (s : Solid) (dt : ℝ) (h0 : 0 ≤ dt) (hf : s.force.mod = 0) :
    (rk4_update s dt).pos.x = s.pos.x + s.vel.x * dt ∧
    (rk4_update s dt).pos.y = s.pos.y + s.vel.y * dt ∧
    (rk4_update s dt).vel = s.vel := by
  rw [rk4_update_of_mod_eq s dt hf]
  refine ⟨?_, ?_, rfl⟩ <;> simp [vect_cset] <;> ring

/-- A concrete force-free Solid used to witness C2. -/
def s_C2 : Solid :=
  { mass := 1, vel := { x := 3, y := 4, mod := 5, angle := 0 },
    pos := { x := 10, y := 20, mod := 0, angle := 0 },
    force := { x := 0, y := 0, mod := 0, angle := 0 },
    dir := 0, dir_vel := 0, update := Integrator.rk4 }

/-- Witness for C2 at the concrete Solid `s_C2` and `dt = 2`. -/
theorem rk4_update_no_force_witness :
    (0 : ℝ) ≤ 2 ∧ s_C2.force.mod = 0 ∧
      ((rk4_update s_C2 2).pos.x = s_C2.pos.x + s_C2.vel.x * 2 ∧
       (rk4_update s_C2 2).pos.y = s_C2.pos.y + s_C2.vel.y * 2 ∧
       (rk4_update s_C2 2).vel = s_C2.vel) :=
  ⟨by norm_num, rfl, rk4_update_no_force s_C2 2 (by norm_num) rfl⟩

/-- C5 counterexample: there is no pair `(v, h)` at which the x-axis blend and
the y-axis blend disagree — over the reals the two formulas are identical, so
the claimed inconsistency between the axes does not exist. -/
theorem rk4_blends_no_disagreement : ¬ ∃ v h : ℝ, rk4_xblend h v ≠ rk4_yblend h v := by
  push_neg
  intro v h
  simp only [rk4_xblend, rk4_yblend]
  ring

/-- C5 (amended): the per-axis blends, though written differently in the
source, are algebraically identical, both equal to
`v·h·(6 + 9h + 5h² + h³)/6`; the inconsistency is with a coherent RK4
derivation (no acceleration term appears), not between the two axes. -/
theorem rk4_blends_identical (v h : ℝ) :
    rk4_xblend h v = rk4_yblend h v ∧
    rk4_xblend h v = v * h * (6 + 9 * h + 5 * h ^ 2 + h ^ 3) / 6 := by
  constructor <;> simp only [rk4_xblend, rk4_yblend] <;> ring

/-- C9: one substep of the force-branch loop adds
`v·h·(6 + 9h + 5h² + h³)/6` to each position axis — a function of the current
velocity component and `h` only, with no dependence on the acceleration —
while the velocity alone is advanced by `acceleration · h`. -/
theorem rk4_loop_single_step (h ax ay px py vx vy : ℝ) :
    rk4_loop h ax ay 1 (px, py, vx, vy) =
      (px + vx * h * (6 + 9 * h + 5 * h ^ 2 + h ^ 3) / 6,
       py + vy * h * (6 + 9 * h + 5 * h ^ 2 + h ^ 3) / 6,
       vx + ax * h, vy + ay * h) := by
  rw [rk4_loop_closed]
  refine Prod.ext ?_ (Prod.ext ?_ (Prod.ext ?_ ?_)) <;> push_cast <;> ring

/-- The Solid of the spec's example scenario: mass 2, zero initial velocity
and position, force (4,0). -/
def s_C6 : Solid :=
  { mass := 2, vel := { x := 0, y := 0, mod := 0, angle := 0 },
    pos := { x := 0, y := 0, mod := 0, angle := 0 },
    force := { x := 4, y := 0, mod := 4, angle := 0 },
    dir := 0, dir_vel := 0, update := Integrator.rk4 }

/-- C6: with mass 2, zero initial velocity/position, force (4,0) and `dt = 1`,
`rk4_update` uses acceleration (2,0) and produces position ≈ (1,0)
(within 1/100; the exact value is 602959599/600000000) and velocity exactly
(2,0). -/
theorem rk4_update_example_scenario :
    s_C6.force.x / s_C6.mass = 2 ∧ s_C6.force.y / s_C6.mass = 0 ∧
    |(rk4_update s_C6 1).pos.x - 1| ≤ 1 / 100 ∧
    (rk4_update s_C6 1).pos.y = 0 ∧
    (rk4_update s_C6 1).vel.x = 2 ∧ (rk4_update s_C6 1).vel.y = 0 := by
  have hm : s_C6.force.mod ≠ 0 := by
    show (4 : ℝ) ≠ 0
    norm_num
  have hh : rk4_h 1 = 1 / 100 := by
    unfold rk4_h
    rw [rk4_N_one]
    norm_num
  rw [rk4_update_of_mod_ne s_C6 1 hm, rk4_N_one, hh]
  simp only [s_C6]
  rw [rk4_loop_closed]
  norm_num [vect_cset, abs_le]

/-- A Solid with mass 1, zero velocity/position and unit force along x, used
as C1's failing input. -/
def s_C1 : Solid :=
  { mass := 1, vel := { x := 0, y := 0, mod := 0, angle := 0 },
    pos := { x := 0, y := 0, mod := 0, angle := 0 },
    force := { x := 1, y := 0, mod := 1, angle := 0 },
    dir := 0, dir_vel := 0, update := Integrator.rk4 }

/-- C1 (code bug): at mass 1, zero initial velocity/position, force (1,0) and
`dt = 1/100` (a single substep), the final x-position computed by
`rk4_update` is exactly 0, while the closed-form kinematic solution
`p₀ + v₀·dt + ½·(F/m)·dt²` is `1/20000 ≠ 0` — the substep position update
drops the acceleration term entirely, contradicting the RK4 derivation in the
source's own comment, and the resulting error depends on the substep count. -/
theorem rk4_update_drops_acceleration_term :
    (rk4_update s_C1 (1 / 100)).pos.x = 0 ∧
    s_C1.pos.x + s_C1.vel.x * (1 / 100) +
      1 / 2 * (s_C1.force.x / s_C1.mass) * (1 / 100) ^ 2 = 1 / 20000 ∧
    (0 : ℝ) ≠ 1 / 20000 := by
  have hm : s_C1.force.mod ≠ 0 := by
    show (1 : ℝ) ≠ 0
    norm_num
  have hN : rk4_N (1 / 100) = 1 := by
    unfold rk4_N
    rw [if_neg (by norm_num [RK4_MIN_H] : ¬((1 : ℝ) / 100 > RK4_MIN_H))]
  have hh : rk4_h (1 / 100) = 1 / 100 := by
    unfold rk4_h
    rw [hN]
    norm_num
  rw [rk4_update_of_mod_ne s_C1 (1 / 100) hm, hN, hh]
  simp only [s_C1]
  rw [rk4_loop_closed]
  norm_num [vect_cset]

/-- A Solid with heading 0 and a large angular velocity, used as C3's
counterexample input. -/
def s_C3 : Solid :=
  { mass := 1, vel := { x := 0, y := 0, mod := 0, angle := 0 },
    pos := { x := 0, y := 0, mod := 0, angle := 0 },
    force := { x := 0, y := 0, mod := 0, angle := 0 },
    dir := 0, dir_vel := 518400, update := Integrator.rk4 }

/-- C3 counterexample: starting from heading 0 (inside `[0, 2π)`) with angular
velocity 518400 and `dt = 1`, the heading increment is 1440 and the single
conditional subtraction of `2π` leaves the final heading at `1440 − 2π`,
which is still at least `2π` — outside `[0, 2π)`. -/
theorem rk4_update_dir_escape :
    0 ≤ s_C3.dir ∧ s_C3.dir < 2 * Real.pi ∧ 2 * Real.pi ≤ (rk4_update s_C3 1).dir := by
  have hpi1 : Real.pi < 3.15 := Real.pi_lt_d2
  have hpi0 : 0 < Real.pi := Real.pi_pos
  refine ⟨le_refl 0, by norm_num [s_C3]; linarith, ?_⟩
  rw [rk4_update_dir_eq]
  show 2 * Real.pi ≤ dir_step 0 518400 1
  simp only [dir_step]
  split_ifs <;> linarith

/-- C3 (amended): if the heading starts in `[0, 2π)` and the magnitude of the
heading increment `dir_vel/360·dt` is at most `2π`, the final heading lies in
the closed interval `[0, 2π]` (the value `2π` itself is reachable because the
normalization guard is strict); when the incremented heading goes negative it
wraps by adding `2π`, and when it exceeds `2π` it wraps by subtracting `2π`.
Unbounded increments escape the interval, as the counterexample shows. -/
theorem rk4_update_dir_bounded (s : Solid) (dt : ℝ)
    (h1 : 0 ≤ s.dir) (h2 : s.dir < 2 * Real.pi)
    (h3 : |s.dir_vel / 360 * dt| ≤ 2 * Real.pi) :
    (0 ≤ (rk4_update s dt).dir ∧ (rk4_update s dt).dir ≤ 2 * Real.pi) ∧
    (s.dir + s.dir_vel / 360 * dt < 0 →
      (rk4_update s dt).dir = s.dir + s.dir_vel / 360 * dt + 2 * Real.pi) ∧
    (2 * Real.pi < s.dir + s.dir_vel / 360 * dt →
      (rk4_update s dt).dir = s.dir + s.dir_vel / 360 * dt - 2 * Real.pi) := by
  have hpi0 : 0 < Real.pi := Real.pi_pos
  obtain ⟨ha, hb⟩ := abs_le.mp h3
  rw [rk4_update_dir_eq]
  simp only [dir_step]
  split_ifs <;>
    refine ⟨⟨by linarith, by linarith⟩, fun hc => by linarith, fun hc => by linarith⟩

/-- A Solid already inside `[0, 2π)` with zero angular velocity, witnessing
C3's amended theorem. -/
def s_C3w : Solid :=
  { mass := 1, vel := { x := 0, y := 0, mod := 0, angle := 0 },
    pos := { x := 0, y := 0, mod := 0, angle := 0 },
    force := { x := 0, y := 0, mod := 0, angle := 0 },
    dir := 0, dir_vel := 0, update := Integrator.rk4 }

/-- Witness for C3's amended theorem at `s_C3w` and `dt = 0`. -/
theorem rk4_update_dir_bounded_witness :
    (0 ≤ s_C3w.dir ∧ s_C3w.dir < 2 * Real.pi ∧
      |s_C3w.dir_vel / 360 * (0 : ℝ)| ≤ 2 * Real.pi) ∧
    (0 ≤ (rk4_update s_C3w 0).dir ∧ (rk4_update s_C3w 0).dir ≤ 2 * Real.pi) :=
  ⟨⟨le_refl 0, by norm_num [s_C3w]; linarith [Real.pi_pos],
      by norm_num [s_C3w]; linarith [Real.pi_pos]⟩,
   (rk4_update_dir_bounded s_C3w 0 (le_refl 0)
      (by norm_num [s_C3w]; linarith [Real.pi_pos])
      (by norm_num [s_C3w]; linarith [Real.pi_pos])).1⟩

/-- C4 counterexample: at `dt = 3/200 = 0.015` the code takes
`N = ⌊0.015/0.01⌋ = 1` substep, while the claimed formula
`max(1, ⌈dt/0.01⌉)` gives 2 — the C cast truncates, it does not round up. -/
theorem rk4_N_floor_not_ceil :
    rk4_N (3 / 200) = 1 ∧ max 1 ⌈(3 / 200 : ℝ) / RK4_MIN_H⌉ = 2 ∧ (1 : ℤ) ≠ 2 := by
  have hdiv : (3 / 200 : ℝ) / RK4_MIN_H = 3 / 2 := by norm_num [RK4_MIN_H]
  have hfloor : ⌊(3 / 2 : ℝ)⌋ = 1 := by
    rw [Int.floor_eq_iff] <;> norm_num
  have hceil : ⌈(3 / 2 : ℝ)⌉ = 2 := by
    rw [Int.ceil_eq_iff] <;> norm_num
  refine ⟨?_, ?_, by norm_num⟩
  · unfold rk4_N
    rw [if_pos (by norm_num [RK4_MIN_H]), hdiv, hfloor]
    rfl
  · rw [hdiv, hceil]
    norm_num

/-- C4 (amended): for `dt ≥ 0` the force branch runs
`N = max(1, ⌊dt/0.01⌋)` equal substeps (floor, not ceiling) of size
`h = dt/N`; consequently when `dt/0.01` is not an integer a substep may be
longer than 0.01 time units. -/
theorem rk4_N_is_max_one_floor (dt : ℝ) (h0 : 0 ≤ dt) :
    (rk4_N dt : ℤ) = max 1 ⌊dt / RK4_MIN_H⌋ ∧ rk4_h dt = dt / (rk4_N dt : ℝ) := by
  refine ⟨?_, rfl⟩
  unfold rk4_N
  split_ifs with hgt
  · have h1 : (1 : ℤ) ≤ ⌊dt / RK4_MIN_H⌋ := by
      rw [Int.le_floor]
      rw [show ((1 : ℤ) : ℝ) = 1 by norm_num]
      rw [le_div_iff₀ (by norm_num [RK4_MIN_H])]
      simp only [RK4_MIN_H] at hgt ⊢
      norm_num
      linarith
    rw [Int.toNat_of_nonneg (by linarith), max_eq_right h1]
  · push_neg at hgt
    have hx : dt / RK4_MIN_H ≤ 1 := by
      rw [div_le_one (by norm_num [RK4_MIN_H])]
      exact hgt
    have h2 : ⌊dt / RK4_MIN_H⌋ ≤ 1 := by
      have := Int.floor_le_floor hx
      rwa [Int.floor_one] at this
    rw [max_eq_left h2]
    norm_num

/-- Witness for C4's amended theorem at `dt = 1`. -/
theorem rk4_N_is_max_one_floor_witness :
    (0 : ℝ) ≤ 1 ∧
      ((rk4_N 1 : ℤ) = max 1 ⌊(1 : ℝ) / RK4_MIN_H⌋ ∧ rk4_h 1 = 1 / (rk4_N 1 : ℝ)) :=
  ⟨by norm_num, rk4_N_is_max_one_floor 1 (by norm_num)⟩

/-- C8 counterexample: at `dt = 0` the substep loop still runs one iteration
(`N = 1`), which exceeds the claimed bound `dt/0.01 = 0`. -/
theorem rk4_N_bound_fails_at_zero :
    rk4_N 0 = 1 ∧ ¬((rk4_N 0 : ℝ) ≤ 0 / RK4_MIN_H) := by
  have h : rk4_N 0 = 1 := by
    unfold rk4_N
    rw [if_neg (by norm_num [RK4_MIN_H])]
  refine ⟨h, ?_⟩
  rw [h]
  norm_num

/-- C8 (amended): the update always runs to completion — in the embedding the
substep loop is a total function on the fuel `rk4_N dt` — and the loop count
satisfies `1 ≤ N`, with `N ≤ dt/0.01` whenever `dt > 0.01`; for
`dt ≤ 0.01` the loop still runs its one mandatory iteration, so the upper
bound is `max(1, dt/0.01)` rather than `dt/0.01`. -/
theorem rk4_N_substep_bounds (dt : ℝ) (h0 : 0 ≤ dt) :
    1 ≤ rk4_N dt ∧ (RK4_MIN_H < dt → (rk4_N dt : ℝ) ≤ dt / RK4_MIN_H) := by
  constructor
  · unfold rk4_N
    split_ifs with hgt
    · have h1 : (1 : ℤ) ≤ ⌊dt / RK4_MIN_H⌋ := by
        rw [Int.le_floor]
        rw [show ((1 : ℤ) : ℝ) = 1 by norm_num]
        rw [le_div_iff₀ (by norm_num [RK4_MIN_H])]
        simp only [RK4_MIN_H] at hgt ⊢
        norm_num
        linarith
      omega
    · exact le_refl 1
  · intro hgt
    unfold rk4_N
    rw [if_pos hgt]
    have h3 : 0 ≤ ⌊dt / RK4_MIN_H⌋ := by
      apply Int.floor_nonneg.mpr
      exact div_nonneg h0 (by norm_num [RK4_MIN_H])
    rw [← Int.cast_natCast, Int.toNat_of_nonneg h3]
    exact Int.floor_le _

/-- Witness for C8's amended theorem at `dt = 1`. -/
theorem rk4_N_substep_bounds_witness :
    (0 : ℝ) ≤ 1 ∧ (1 ≤ rk4_N 1 ∧ (RK4_MIN_H < 1 → (rk4_N 1 : ℝ) ≤ 1 / RK4_MIN_H)) :=
  ⟨by norm_num, rk4_N_substep_bounds 1 (by norm_num)⟩

/-- A no-force Solid whose velocity's polar field disagrees with its cartesian
fields, used as C7's counterexample input. -/
def s_C7 : Solid :=
  { mass := 1, vel := { x := 1, y := 0, mod := 5, angle := 0 },
    pos := { x := 0, y := 0, mod := 0, angle := 0 },
    force := { x := 0, y := 0, mod := 0, angle := 0 },
    dir := 0, dir_vel := 0, update := Integrator.rk4 }

/-- C7 counterexample: with zero force the velocity is never re-committed
through `vect_cset`, so a pre-existing inconsistency between `vel.mod` and
`sqrt(vel.x² + vel.y²)` survives the update: here `vel.mod` stays 5 while the
magnitude recomputed from `(1, 0)` is 1. -/
theorem rk4_update_vel_inconsistency_preserved :
    (rk4_update s_C7 1).vel.mod ≠
      MOD (rk4_update s_C7 1).vel.x (rk4_update s_C7 1).vel.y := by
  rw [rk4_update_of_mod_eq s_C7 1 rfl]
  show (5 : ℝ) ≠ MOD 1 0
  unfold MOD
  rw [show (1 : ℝ) ^ 2 + 0 ^ 2 = 1 by norm_num, Real.sqrt_one]
  norm_num

/-- C7 (amended): the final position is always committed through `vect_cset`,
so its polar fields equal `MOD`/`ANGLE` of its cartesian fields; the final
velocity is committed through `vect_cset` — and hence consistent — only when
a force is applied (`force.mod ≠ 0`); with zero force the velocity record is
left exactly as it was. -/
theorem rk4_update_commits_via_cset (s : Solid) (dt : ℝ) :
    ((rk4_update s dt).pos.mod =
        MOD (rk4_update s dt).pos.x (rk4_update s dt).pos.y ∧
     (rk4_update s dt).pos.angle =
        ANGLE (rk4_update s dt).pos.x (rk4_update s dt).pos.y) ∧
    (s.force.mod ≠ 0 →
      (rk4_update s dt).vel.mod =
          MOD (rk4_update s dt).vel.x (rk4_update s dt).vel.y ∧
      (rk4_update s dt).vel.angle =
          ANGLE (rk4_update s dt).vel.x (rk4_update s dt).vel.y) := by
  by_cases hf : s.force.mod = 0
  · rw [rk4_update_of_mod_eq s dt hf]
    exact ⟨⟨rfl, rfl⟩, fun hc => absurd hf hc⟩
  · rw [rk4_update_of_mod_ne s dt hf]
    exact ⟨⟨rfl, rfl⟩, fun _ => ⟨rfl, rfl⟩⟩

/-- A Solid with an applied force, witnessing C7's amended theorem. -/
def s_C7w : Solid :=
  { mass := 2, vel := { x := 1, y := 1, mod := 0, angle := 0 },
    pos := { x := 0, y := 0, mod := 0, angle := 0 },
    force := { x := 4, y := 0, mod := 4, angle := 0 },
    dir := 0, dir_vel := 0, update := Integrator.rk4 }

/-- Witness for C7's amended theorem at `s_C7w` and `dt = 1`. -/
theorem rk4_update_commits_via_cset_witness :
    s_C7w.force.mod ≠ 0 ∧
    ((rk4_update s_C7w 1).pos.mod =
        MOD (rk4_update s_C7w 1).pos.x (rk4_update s_C7w 1).pos.y ∧
     (rk4_update s_C7w 1).vel.mod =
        MOD (rk4_update s_C7w 1).vel.x (rk4_update s_C7w 1).vel.y) :=
  ⟨by show (4 : ℝ) ≠ 0; norm_num,
   (rk4_update_commits_via_cset s_C7w 1).1.1,
   ((rk4_update_commits_via_cset s_C7w 1).2 (by show (4 : ℝ) ≠ 0; norm_num)).1⟩

/-- A pre-existing memory state for `solid_init`, with recognizable garbage in
the fields the source never writes. -/
def s_C10a : Solid :=
  { mass := 0, vel := { x := 0, y := 0, mod := 0, angle := 0 },
    pos := { x := 0, y := 0, mod := 0, angle := 0 },
    force := { x := 1, y := 0, mod := 9, angle := 0 },
    dir := 3, dir_vel := 7, update := Integrator.rk4 }

/-- The same pre-existing memory state with a different `dir_vel`. -/
def s_C10b : Solid := { s_C10a with dir_vel := 0 }

/-- C10 counterexample: `solid_init` also leaves the angular velocity
(`dir_vel`) unwritten — two pre-states differing only in `dir_vel` produce
different initialized Solids, so not every field besides `force.x/y/angle` is
initialized.  The force part of the claim does hold: after initialization the
force's magnitude 0 disagrees with the magnitude recomputed from the
preserved cartesian components `(1, 0)`. -/
theorem solid_init_dir_vel_unwritten :
    (solid_init s_C10a 1 none none).dir_vel = 7 ∧
    (solid_init s_C10b 1 none none).dir_vel = 0 ∧
    (7 : ℝ) ≠ 0 ∧
    (solid_init s_C10a 1 none none).force.mod ≠
      MOD (solid_init s_C10a 1 none none).force.x
        (solid_init s_C10a 1 none none).force.y := by
  refine ⟨rfl, rfl, by norm_num, ?_⟩
  show (0 : ℝ) ≠ MOD 1 0
  unfold MOD
  rw [show (1 : ℝ) ^ 2 + 0 ^ 2 = 1 by norm_num, Real.sqrt_one]
  norm_num

/-- C10 (amended): `solid_init` writes only the magnitude of the force
(setting it to 0), leaving the force's `x`, `y` and `angle` unwritten — so
the force's cartesian/polar consistency is not established — and also leaves
the angular velocity `dir_vel` unwritten; `mass`, heading, velocity, position
and the update operation are fully initialized from the arguments. -/
theorem solid_init_frame (pre : Solid) (mass : ℝ) (v p : Option Vector2d) :
    (solid_init pre mass v p).force.x = pre.force.x ∧
    (solid_init pre mass v p).force.y = pre.force.y ∧
    (solid_init pre mass v p).force.angle = pre.force.angle ∧
    (solid_init pre mass v p).force.mod = 0 ∧
    (solid_init pre mass v p).mass = mass ∧
    (solid_init pre mass v p).dir = 0 ∧
    (solid_init pre mass v p).update = Integrator.rk4 ∧
    (solid_init pre mass v p).dir_vel = pre.dir_vel ∧
    (v = none → (solid_init pre mass v p).vel = vectnull) ∧
    (∀ w, v = some w → (solid_init pre mass v p).vel = w) ∧
    (p = none → (solid_init pre mass v p).pos = vectnull) ∧
    (∀ w, p = some w → (solid_init pre mass v p).pos = w) := by
  refine ⟨rfl, rfl, rfl, rfl, rfl, rfl, rfl, rfl, ?_, ?_, ?_, ?_⟩
  · rintro rfl
    rfl
  · rintro w rfl
    rfl
  · rintro rfl
    rfl
  · rintro w rfl
    rfl

/-- Witness for C10's amended theorem at the concrete pre-state `s_C10a`. -/
theorem solid_init_frame_witness :
    (solid_init s_C10a 1 none none).force.x = s_C10a.force.x ∧
    (solid_init s_C10a 1 none none).force.mod = 0 ∧
    (solid_init s_C10a 1 none none).dir_vel = s_C10a.dir_vel ∧
    (solid_init s_C10a 1 none none).vel = vectnull := by
  obtain ⟨h1, h2, h3, h4, h5, h6, h7, h8, h9, h10, h11, h12⟩ :=
    solid_init_frame s_C10a 1 none none
  exact ⟨h1, h4, h8, h9 rfl⟩

end Physics
